import Mathlib

/-!
Verification of the SQL plugin guest-side facade
(`src/plugins/sql/guest-js/index.ts`).

The facade is a thin layer over the plugin backend reached through
`invoke`.  We embed it shallowly: the backend is a record of response
functions (one per plugin command), and each facade operation returns
the post-state of the handle, the list of commands it sent to the
backend, and the result (`Except` models promise resolution/rejection).
Bind values (`unknown[]` in TypeScript) are kept abstract as a type
parameter `α`; the row type returned by `select` (the generic `T`) is
kept abstract as `ρ`.
-/

/-- A command sent over the plugin boundary by `invoke`, together with
its payload, exactly as the facade builds it. -/
inductive Cmd (α : Type) where
  | load (db : String)
  | execute (db : String) (sql : String) (values : List α)
  | select (db : String) (sql : String) (values : List α)
  | close (db : String)

/-- `QueryResult` from the TypeScript source: the number of rows
affected and the last inserted id. -/
structure QueryResult where
  rowsAffected : Int
  lastInsertId : Int
deriving DecidableEq

/-- The backend of the plugin: one response function per command.
`Except String` models a resolved (`ok`) or rejected (`error`) promise,
the error being the driver-native message. -/
structure Backend (α ρ : Type) where
  loadResp : String → Except String String
  executeResp : String → String → List α → Except String (Int × Int)
  selectResp : String → String → List α → Except String ρ
  closeResp : String → Except String Bool

/-- The `Database` class: a handle holding only the connection string. -/
structure Database where
  connection : String
deriving DecidableEq

/-- `Database.load`: invokes `plugin:sql|load` with the descriptor and,
on success, wraps the string the backend returned in a new handle. -/
def Database.load {α ρ : Type} (B : Backend α ρ) (connection : String) :
    List (Cmd α) × Except String Database :=
  ([Cmd.load connection],
    match B.loadResp connection with
    | Except.ok conn => Except.ok (Database.mk conn)
    | Except.error e => Except.error e)

/-- `Database.get`: synchronously returns a handle wrapping the given
descriptor; no command is sent to the backend. -/
def Database.get {α : Type} (connection : String) :
    List (Cmd α) × Database :=
  ([], Database.mk connection)

/-- `Database.execute`: invokes `plugin:sql|execute` with the handle's
connection, the sql text and `bindValues ?? []`, and repackages the
returned pair as a `QueryResult`. -/
def Database.execute {α ρ : Type} (B : Backend α ρ) (db : Database)
    (sql : String) (bindValues : Option (List α)) :
    Database × List (Cmd α) × Except String QueryResult :=
  let values := bindValues.getD []
  (db, [Cmd.execute db.connection sql values],
    match B.executeResp db.connection sql values with
    | Except.ok p => Except.ok (QueryResult.mk p.1 p.2)
    | Except.error e => Except.error e)

/-- `Database.select`: invokes `plugin:sql|select` with the handle's
connection, the sql text and `bindValues ?? []`, returning the backend's
value unchanged. -/
def Database.select {α ρ : Type} (B : Backend α ρ) (db : Database)
    (sql : String) (bindValues : Option (List α)) :
    Database × List (Cmd α) × Except String ρ :=
  let values := bindValues.getD []
  (db, [Cmd.select db.connection sql values],
    B.selectResp db.connection sql values)

/-- `Database.close`: invokes `plugin:sql|close` with the handle's
connection, returning the backend's boolean unchanged. -/
def Database.close {α ρ : Type} (B : Backend α ρ) (db : Database) :
    Database × List (Cmd α) × Except String Bool :=
  (db, [Cmd.close db.connection], B.closeResp db.connection)

/-- The three schemes of the `DbConnection` template-literal type. -/
def dbSchemes : List String := ["sqlite", "postgres", "mysql"]

/-- Decidable membership in the `DbConnection` type: the string starts
with one of the three schemes followed by a colon. -/
def isDbConnection (s : String) : Bool :=
  dbSchemes.any fun sc => List.isPrefixOf (sc ++ ":").data s.data

/-- Modelled from the spec: the Lifecycle Manager and the Pool Table
(spec section 4.5) live in the native backend, whose source is not part
of this repository.  `closePools table d` closes the pool of descriptor
`d`, or every pool when `d` is absent; it returns whether any pool state
changed together with the remaining table, and never errors (nothing to
close reports `false`). -/
def closePools (table : List String) (d : Option String) :
    Bool × List String :=
  match d with
  | some desc => (decide (desc ∈ table), table.filter fun x => x != desc)
  | none => (!table.isEmpty, [])

/-- Modelled from the spec: the Postgres driver, which is not part of
this repository's source, has no meaningful last-inserted-id, so its
execute response carries `0` in that position by convention; only the
affected-row count `rowsOf db sql values` is driver-determined. -/
def postgresExecuteResp {α : Type}
    (rowsOf : String → String → List α → Except String Int) :
    String → String → List α → Except String (Int × Int) :=
  fun db sql values => (rowsOf db sql values).map fun r => (r, 0)

/-- A concrete affected-row count for the modelled Postgres driver: the
number of bound values. -/
def pgRowsOf : String → String → List Nat → Except String Int :=
  fun _ _ values => Except.ok (Int.ofNat values.length)

/-- A concrete backend whose execute response is the modelled Postgres
one. -/
def pgBackend : Backend Nat String :=
  Backend.mk (fun c => Except.ok c)
    (postgresExecuteResp pgRowsOf)
    (fun _ sql _ => Except.ok sql)
    (fun _ => Except.ok true)

/- Helper lemmas. -/

theorem isPrefixOf_eq_true_iff (l₁ l₂ : List Char) :
    l₁.isPrefixOf l₂ = true ↔ ∃ t, l₂ = l₁ ++ t := by
  induction l₁ generalizing l₂ with
  | nil => simp [List.isPrefixOf]
  | cons a as ih =>
    cases l₂ with
    | nil => simp [List.isPrefixOf]
    | cons b bs =>
      simp only [List.isPrefixOf, Bool.and_eq_true, beq_iff_eq, ih]
      constructor
      · rintro ⟨rfl, t, rfl⟩
        exact ⟨t, rfl⟩
      · rintro ⟨t, h⟩
        obtain ⟨h1, h2⟩ := List.cons.injEq .. ▸ h
        exact ⟨h1.symm, t, h2⟩

theorem string_data_eq_append (s p : String) (t : List Char)
    (h : s.data = p.data ++ t) : s = p ++ String.mk t := by
  cases s with
  | mk d =>
    cases p with
    | mk pd =>
      simp only [String.data] at h
      subst h
      rfl

theorem execute_result {α ρ : Type} (B : Backend α ρ) (db : Database)
    (sql : String) (bv : Option (List α)) :
    (Database.execute B db sql bv).2.2 =
      (B.executeResp db.connection sql (bv.getD [])).map
        (fun p => QueryResult.mk p.1 p.2) := by
  cases h : B.executeResp db.connection sql (bv.getD []) <;>
    simp [Database.execute, h, Except.map]

/- Claim theorems. -/

/-- C1: for every sql string and parameter list, `execute` returns a
record whose `rowsAffected` is the first and `lastInsertId` the second
component of the pair the backend execute command returned, with no
other fields and no modification; a backend failure is returned as is. -/
theorem execute_passes_backend_pair_through {α ρ : Type}
    (B : Backend α ρ) (db : Database) (sql : String)
    (bv : Option (List α)) :
    (Database.execute B db sql bv).2.2 =
      (B.executeResp db.connection sql (bv.getD [])).map
        (fun p => QueryResult.mk p.1 p.2) :=
  execute_result B db sql bv

/-- C2: `get c` returns a handle whose connection field is `c`, and it
sends no command to the backend. -/
theorem get_returns_handle_without_backend_invocation {α : Type}
    (c : String) :
    (@Database.get α c).2.connection = c ∧ (@Database.get α c).1 = [] :=
  ⟨rfl, rfl⟩

/-- C3: `load c` sends exactly one load command, carrying `c`; a backend
failure is propagated and no handle is produced; a backend success `s`
yields a handle whose connection field is `s`. -/
theorem load_invokes_once_and_propagates {α ρ : Type}
    (B : Backend α ρ) (c : String) :
    (Database.load B c).1 = [Cmd.load c] ∧
    (Database.load B c).2 = (B.loadResp c).map Database.mk := by
  refine ⟨rfl, ?_⟩
  unfold Database.load
  cases B.loadResp c <;> rfl

/-- C4: `select` returns exactly the backend select response — no
transformation, filtering, reordering or caching — and sends exactly one
select command. -/
theorem select_passes_backend_value_through {α ρ : Type}
    (B : Backend α ρ) (db : Database) (sql : String)
    (bv : Option (List α)) :
    (Database.select B db sql bv).2.2 =
      B.selectResp db.connection sql (bv.getD []) ∧
    (Database.select B db sql bv).2.1 =
      [Cmd.select db.connection sql (bv.getD [])] :=
  ⟨rfl, rfl⟩

/-- C5: close with a descriptor closes that one pool, reporting `false`
(not an error) when there is nothing to close; with the descriptor
absent it closes every pool in the Pool Table; in every case the
returned boolean says whether any pool state changed.  The facade's
close sends one close command carrying the handle's connection and
returns the backend's boolean unchanged. -/
theorem close_reports_pool_state_change (table : List String)
    (d : Option String) :
    ((closePools table d).1 = true ↔ (closePools table d).2 ≠ table) ∧
    (closePools table none).2 = [] ∧
    (∀ desc, desc ∉ table → closePools table (some desc) = (false, table)) ∧
    (∀ {α ρ : Type} (B : Backend α ρ) (db : Database),
      (Database.close B db).2.1 = [Cmd.close db.connection] ∧
      (Database.close B db).2.2 = B.closeResp db.connection) := by
  refine ⟨?_, rfl, ?_, fun B db => ⟨rfl, rfl⟩⟩
  · cases d with
    | none =>
      simp only [closePools, Bool.not_eq_true', List.isEmpty_eq_false,
        ne_eq]
      constructor
      · intro h hc
        exact h hc.symm
      · intro h hc
        exact h hc.symm
    | some desc =>
      simp only [closePools, ne_eq, decide_eq_true_eq]
      constructor
      · intro hm hf
        rw [← hf] at hm
        simp at hm
      · intro hne
        by_contra hm0
        apply hne
        refine List.filter_eq_self.mpr fun a ha => ?_
        simp only [bne_iff_ne, ne_eq]
        intro e
        exact hm0 (e ▸ ha)
  · intro desc hm
    simp only [closePools, Prod.mk.injEq]
    refine ⟨decide_eq_false hm, ?_⟩
    refine List.filter_eq_self.mpr fun a ha => ?_
    simp only [bne_iff_ne, ne_eq]
    intro e
    exact hm (e ▸ ha)

theorem close_reports_pool_state_change_witness :
    closePools ["sqlite:a.db"] (some "mysql:m") =
      (false, ["sqlite:a.db"]) :=
  (close_reports_pool_state_change ["sqlite:a.db"]
    (some "mysql:m")).2.2.1 "mysql:m" (by decide)

/-- C6: every facade operation either returns a well-typed result or
fails with exactly the backend's error: it fails with message `e` if and
only if the backend command it sent failed with message `e`, so errors
are never caught, suppressed or rewritten and no partial result hides an
error. -/
theorem errors_propagate_unchanged {α ρ : Type} (B : Backend α ρ)
    (db : Database) (c sql : String) (bv : Option (List α))
    (e : String) :
    ((Database.load B c).2 = Except.error e ↔
      B.loadResp c = Except.error e) ∧
    ((Database.execute B db sql bv).2.2 = Except.error e ↔
      B.executeResp db.connection sql (bv.getD []) = Except.error e) ∧
    ((Database.select B db sql bv).2.2 = Except.error e ↔
      B.selectResp db.connection sql (bv.getD []) = Except.error e) ∧
    ((Database.close B db).2.2 = Except.error e ↔
      B.closeResp db.connection = Except.error e) := by
  refine ⟨?_, ?_, Iff.rfl, Iff.rfl⟩
  · cases h : B.loadResp c <;> simp [Database.load, h]
  · cases h : B.executeResp db.connection sql (bv.getD []) <;>
      simp [Database.execute, h]

/-- C7: every string of the `DbConnection` type has the form
`scheme:address` with the scheme one of sqlite, postgres, mysql, and the
facade passes the descriptor verbatim to the backend: load sends it
unchanged and get stores it unchanged. -/
theorem dbConnection_shape_and_verbatim (s : String)
    (h : isDbConnection s = true) :
    (∃ sc addr, sc ∈ dbSchemes ∧ s = sc ++ ":" ++ addr) ∧
    (∀ {α ρ : Type} (B : Backend α ρ),
      (Database.load B s).1 = [Cmd.load s]) ∧
    (∀ {α : Type}, (@Database.get α s).2.connection = s) := by
  refine ⟨?_, fun B => rfl, rfl⟩
  unfold isDbConnection at h
  rw [List.any_eq_true] at h
  obtain ⟨sc, hsc, hp⟩ := h
  rw [isPrefixOf_eq_true_iff] at hp
  obtain ⟨t, ht⟩ := hp
  exact ⟨sc, String.mk t, hsc, string_data_eq_append s (sc ++ ":") t ht⟩

theorem dbConnection_shape_witness :
    isDbConnection "sqlite:test.db" = true ∧
    (∃ sc addr, sc ∈ dbSchemes ∧ "sqlite:test.db" = sc ++ ":" ++ addr) :=
  ⟨by decide,
    (dbConnection_shape_and_verbatim "sqlite:test.db" (by decide)).1⟩

/-- C8: when the backend's execute response is the modelled Postgres
one (no meaningful last-inserted-id), every successful facade execute
returns a `QueryResult` whose `lastInsertId` is `0`. -/
theorem postgres_execute_lastInsertId_zero {α ρ : Type}
    (B : Backend α ρ)
    (rowsOf : String → String → List α → Except String Int)
    (hB : B.executeResp = postgresExecuteResp rowsOf)
    (db : Database) (sql : String) (bv : Option (List α))
    (q : QueryResult)
    (hq : (Database.execute B db sql bv).2.2 = Except.ok q) :
    q.lastInsertId = 0 := by
  rw [execute_result, hB] at hq
  unfold postgresExecuteResp at hq
  cases hr : rowsOf db.connection sql (bv.getD []) with
  | ok r =>
    rw [hr] at hq
    simp only [Except.map] at hq
    obtain rfl := (Except.ok.injEq ..).mp hq
    rfl
  | error e =>
    rw [hr] at hq
    simp [Except.map] at hq

theorem postgres_execute_witness :
    (Database.execute pgBackend (Database.mk "postgres:todos")
        "INSERT INTO todos (title) VALUES ($1)" (some [5])).2.2 =
      Except.ok (QueryResult.mk 1 0) ∧
    (QueryResult.mk 1 0).lastInsertId = 0 :=
  ⟨rfl,
    postgres_execute_lastInsertId_zero pgBackend pgRowsOf rfl
      (Database.mk "postgres:todos")
      "INSERT INTO todos (title) VALUES ($1)" (some [5])
      (QueryResult.mk 1 0) rfl⟩

/-- C9: calling execute or select with bindValues absent is identical
to calling it with an explicit empty list; the backend receives an empty
values array in both cases. -/
theorem omitted_bindValues_is_empty_list {α ρ : Type}
    (B : Backend α ρ) (db : Database) (sql : String) :
    Database.execute B db sql none = Database.execute B db sql (some []) ∧
    Database.select B db sql none = Database.select B db sql (some []) ∧
    (Database.execute B db sql none).2.1 =
      [Cmd.execute db.connection sql []] ∧
    (Database.select B db sql none).2.1 =
      [Cmd.select db.connection sql []] :=
  ⟨rfl, rfl, rfl, rfl⟩

/-- C10: the constructor stores any string verbatim in the connection
field with no runtime validation, and execute, select and close leave
the handle they are invoked on unchanged. -/
theorem connection_field_frame {α ρ : Type} (B : Backend α ρ)
    (c sql : String) (bv : Option (List α)) (db : Database) :
    (Database.mk c).connection = c ∧
    (Database.execute B db sql bv).1 = db ∧
    (Database.select B db sql bv).1 = db ∧
    (Database.close B db).1 = db :=
  ⟨rfl, rfl, rfl, rfl⟩
